import Mathlib

/-!
Shallow embedding of the Letterboxd ratings scraping pipeline
(`read_in_data.py`, `fetch_ratings.py`, `compile_training_data.py`,
`load_save_and_translate_data.py`, `generate_user_data.py`) and proofs
about its identity allocation, deduplication, parsing, pagination and
persistence behaviour.

Python dictionaries are embedded as association lists in insertion
order (new keys are appended at the end); dataframes are embedded as
lists of rows; the thread pools are embedded by a deterministic
serialisation of the completion order (the shared-state updates of the
source are guarded by a lock or performed by the single orchestrator
thread, so every interleaving is one such serialisation).
-/

namespace Letterboxd

/-! ## Identity allocation

`read_in_data.scrape_and_encode_user_ratings`, the section guarded by
`max_user_id_lock`:

    with max_user_id_lock:
        if user_string not in user_id_map:
            max_user_id = max(user_id_map.values(), default=0) + 1
            user_id_map[user_string] = max_user_id
        else:
            max_user_id = max(user_id_map.values(), default=0)
    numeric_user_id = user_id_map[user_string]
-/

/-- A Python dict `username -> numeric_user_id` as an association list in
insertion order. -/
abbrev UserMap := List (String × Nat)

/-- `max(user_id_map.values(), default=0)`. -/
def maxUserId (m : UserMap) : Nat :=
  (m.map Prod.snd).foldr max 0

/-- First-match association-list lookup; on a dict (no duplicate keys) this
is Python `m[k]` / the `k in m` test via `Option.isSome`. -/
def dictGet [DecidableEq κ] (k : κ) : List (κ × α) → Option α
  | [] => none
  | (k', v) :: rest => if k' = k then some v else dictGet k rest

/-- The locked get-or-assign section: returns the user's numeric id and the
updated map (a fresh key is appended, as Python dict insertion does). -/
def getOrAssign (k : String) (m : UserMap) : Nat × UserMap :=
  match dictGet k m with
  | some i => (i, m)
  | none => (maxUserId m + 1, m ++ [(k, maxUserId m + 1)])

/-- A sequence of allocations (one per key, in order): the ids produced and
the final map. Each individual allocation is atomic under the lock, so a
concurrent execution is a serialisation of this fold. -/
def allocList : List String → UserMap → List Nat × UserMap
  | [], m => ([], m)
  | k :: ks, m =>
    let p := getOrAssign k m
    let q := allocList ks p.2
    (p.1 :: q.1, q.2)

theorem dictGet_append (k : String) (m₁ m₂ : List (String × α)) :
    dictGet k (m₁ ++ m₂) =
      match dictGet k m₁ with
      | some v => some v
      | none => dictGet k m₂ := by
  induction m₁ with
  | nil => simp [dictGet]
  | cons p rest ih =>
    by_cases h : p.1 = k <;> simp [dictGet, h, ih]

theorem foldr_max_append (l : List Nat) (v : Nat) :
    (l ++ [v]).foldr max 0 = max (l.foldr max 0) v := by
  induction l with
  | nil => simp
  | cons a l ih =>
    simp only [List.cons_append, List.foldr_cons, ih]
    exact (max_assoc a _ v).symm

theorem maxUserId_append_single (m : UserMap) (k : String) (v : Nat) :
    maxUserId (m ++ [(k, v)]) = max (maxUserId m) v := by
  unfold maxUserId
  rw [List.map_append]
  simpa using foldr_max_append (m.map Prod.snd) v

theorem mem_le_maxUserId (m : UserMap) (p : String × Nat) (hp : p ∈ m) :
    p.2 ≤ maxUserId m := by
  unfold maxUserId
  induction m with
  | nil => simp at hp
  | cons q rest ih =>
    simp only [List.map_cons, List.foldr_cons]
    rcases List.mem_cons.mp hp with h | h
    · subst h; exact le_max_left _ _
    · exact le_trans (ih h) (le_max_right _ _)

theorem dictGet_eq_none_iff (k : String) (m : List (String × α)) :
    dictGet k m = none ↔ k ∉ m.map Prod.fst := by
  induction m with
  | nil => simp [dictGet]
  | cons p rest ih =>
    simp only [dictGet, List.map_cons, List.mem_cons]
    by_cases h : p.1 = k
    · simp [h]
    · have h' : ¬ k = p.1 := fun hh => h hh.symm
      simp [h, h', ih]

/-- Core induction for sequences of allocations of fresh, pairwise-distinct
keys: the ids handed out are exactly `M+1, M+2, ..., M+N` in order, and the
final map is the original one with the key/id pairs appended. -/
theorem allocList_fresh (ks : List String) (m : UserMap)
    (hfresh : ∀ k ∈ ks, dictGet k m = none) (hnodup : ks.Nodup) :
    (allocList ks m).1 = List.range' (maxUserId m + 1) ks.length ∧
    (allocList ks m).2 = m ++ ks.zip (List.range' (maxUserId m + 1) ks.length) := by
  induction ks generalizing m with
  | nil => simp [allocList]
  | cons k ks ih =>
    have hk : dictGet k m = none := hfresh k (List.mem_cons_self k ks)
    have hstep : getOrAssign k m = (maxUserId m + 1, m ++ [(k, maxUserId m + 1)]) := by
      simp [getOrAssign, hk]
    have hmax : maxUserId (m ++ [(k, maxUserId m + 1)]) = maxUserId m + 1 := by
      rw [maxUserId_append_single]; omega
    have hfresh' : ∀ k' ∈ ks, dictGet k' (m ++ [(k, maxUserId m + 1)]) = none := by
      intro k' hk'
      rw [dictGet_append, hfresh k' (List.mem_cons_of_mem k hk')]
      have hne : k ≠ k' := by
        intro h; subst h; exact (List.nodup_cons.mp hnodup).1 hk'
      simp [dictGet, hne]
    have ih' := ih (m ++ [(k, maxUserId m + 1)]) hfresh' (List.nodup_cons.mp hnodup).2
    rw [hmax] at ih'
    constructor
    · show (getOrAssign k m).1 :: (allocList ks (getOrAssign k m).2).1 = _
      rw [hstep]
      simp only [List.length_cons, List.range'_succ]
      exact congrArg _ ih'.1
    · show (allocList ks (getOrAssign k m).2).2 = _
      rw [hstep]
      simp only [ih'.2, List.length_cons, List.range'_succ, List.zip_cons_cons,
        List.append_assoc, List.singleton_append]

/-- C1: starting from a user map whose ids are pairwise distinct with maximum
`M = maxUserId m`, allocating over `N` distinct previously-unseen keys
produces exactly `N` distinct ids, each in `{M+1 .. M+N}`; the resulting map
is a bijection between keys and ids (keys pairwise distinct, ids pairwise
distinct); and allocation for an already-mapped key returns its previously
assigned id and leaves the map unchanged. -/
theorem user_id_allocation_spec (ks : List String) (m : UserMap)
    (hkeys : (m.map Prod.fst).Nodup) (hids : (m.map Prod.snd).Nodup)
    (hfresh : ∀ k ∈ ks, dictGet k m = none) (hnodup : ks.Nodup) :
    ((allocList ks m).1).Nodup ∧
    (allocList ks m).1.length = ks.length ∧
    (∀ i ∈ (allocList ks m).1,
      maxUserId m + 1 ≤ i ∧ i ≤ maxUserId m + ks.length) ∧
    ((allocList ks m).2.map Prod.fst).Nodup ∧
    ((allocList ks m).2.map Prod.snd).Nodup ∧
    (∀ k i, dictGet k m = some i → getOrAssign k m = (i, m)) := by
  obtain ⟨hid, hmap⟩ := allocList_fresh ks m hfresh hnodup
  have hlen : (List.range' (maxUserId m + 1) ks.length).length = ks.length :=
    List.length_range' ..
  refine ⟨?_, ?_, ?_, ?_, ?_, ?_⟩
  · rw [hid]; exact List.nodup_range' _ _
  · rw [hid, hlen]
  · intro i hi
    rw [hid] at hi
    have := List.mem_range'.mp hi
    obtain ⟨j, hj, rfl⟩ := this
    omega
  · rw [hmap, List.map_append]
    have hfst : (ks.zip (List.range' (maxUserId m + 1) ks.length)).map Prod.fst = ks :=
      List.map_fst_zip _ _ (by rw [hlen])
    rw [hfst]
    refine hkeys.append hnodup ?_
    intro k hk1 hk2
    have := (dictGet_eq_none_iff k m).mp (hfresh k hk2)
    exact this hk1
  · rw [hmap, List.map_append]
    have hsnd : (ks.zip (List.range' (maxUserId m + 1) ks.length)).map Prod.snd =
        List.range' (maxUserId m + 1) ks.length :=
      List.map_snd_zip _ _ (by rw [hlen])
    rw [hsnd]
    refine hids.append (List.nodup_range' _ _) ?_
    intro v hv1 hv2
    obtain ⟨p, hp, hpv⟩ := List.mem_map.mp hv1
    have hle : v ≤ maxUserId m := hpv ▸ mem_le_maxUserId m p hp
    obtain ⟨j, hj, rfl⟩ := List.mem_range'.mp hv2
    omega
  · intro k i hki
    simp [getOrAssign, hki]

/-- C1 witness: a concrete run — map `{x ↦ 3, y ↦ 1}` (max 3), fresh keys
`[a, b]`; ids `[4, 5]` are produced and all conclusions hold. -/
theorem user_id_allocation_spec_witness :
    ((([("x", 3), ("y", 1)] : UserMap).map Prod.fst).Nodup ∧
     (([("x", 3), ("y", 1)] : UserMap).map Prod.snd).Nodup ∧
     (∀ k ∈ ["a", "b"], dictGet k ([("x", 3), ("y", 1)] : UserMap) = none) ∧
     (["a", "b"] : List String).Nodup) ∧
    ((allocList ["a", "b"] [("x", 3), ("y", 1)]).1.Nodup ∧
     (allocList ["a", "b"] [("x", 3), ("y", 1)]).1.length = (["a", "b"] : List String).length ∧
     (∀ i ∈ (allocList ["a", "b"] [("x", 3), ("y", 1)]).1,
       maxUserId [("x", 3), ("y", 1)] + 1 ≤ i ∧
       i ≤ maxUserId [("x", 3), ("y", 1)] + (["a", "b"] : List String).length) ∧
     ((allocList ["a", "b"] [("x", 3), ("y", 1)]).2.map Prod.fst).Nodup ∧
     ((allocList ["a", "b"] [("x", 3), ("y", 1)]).2.map Prod.snd).Nodup ∧
     (∀ k i, dictGet k ([("x", 3), ("y", 1)] : UserMap) = some i →
       getOrAssign k [("x", 3), ("y", 1)] = (i, [("x", 3), ("y", 1)]))) :=
  ⟨⟨by decide, by decide, by decide, by decide⟩,
   user_id_allocation_spec ["a", "b"] [("x", 3), ("y", 1)]
     (by decide) (by decide) (by decide) (by decide)⟩

/-! ## Rating rows and deduplication

`compile_training_data.run_full_batch_scraping_method`:

    current_users_ratings_df.drop_duplicates(subset=["user_id", "film_id"], inplace=True)

and `generate_user_data.generate_user_data`:

    df_encoded.drop_duplicates(subset=["user_id", "film_id"], inplace=True)

pandas `drop_duplicates` defaults to `keep='first'`: it scans the rows in
order and keeps only the first row seen for each distinct key. -/

/-- A row of the ratings dataframe `(user_id, film_id, rating)`. -/
structure Row where
  user_id : Nat
  film_id : String
  rating : ℚ
deriving DecidableEq

def dropDuplicatesAux (seen : List (Nat × String)) : List Row → List Row
  | [] => []
  | r :: rs =>
    if (r.user_id, r.film_id) ∈ seen then dropDuplicatesAux seen rs
    else r :: dropDuplicatesAux ((r.user_id, r.film_id) :: seen) rs

/-- `df.drop_duplicates(subset=["user_id", "film_id"])` with the default
`keep='first'`. -/
def drop_duplicates (rows : List Row) : List Row :=
  dropDuplicatesAux [] rows

theorem dropDuplicatesAux_filter_key (u : Nat) (f : String) (rows : List Row) :
    ∀ seen : List (Nat × String),
      (dropDuplicatesAux seen rows).filter
          (fun r => r.user_id == u && r.film_id == f) =
        if (u, f) ∈ seen then [] else
          ((rows.filter (fun r => r.user_id == u && r.film_id == f)).take 1) := by
  induction rows with
  | nil => intro seen; simp [dropDuplicatesAux]
  | cons r rs ih =>
    intro seen
    by_cases hseen : (r.user_id, r.film_id) ∈ seen
    · rw [dropDuplicatesAux, if_pos hseen, ih seen]
      by_cases huf : (u, f) ∈ seen
      · simp [huf]
      · have hpr : ¬(r.user_id == u && r.film_id == f) = true := by
          intro hc
          simp only [Bool.and_eq_true, beq_iff_eq] at hc
          exact huf (hc.1 ▸ hc.2 ▸ hseen)
        rw [if_neg huf, if_neg huf, List.filter_cons, if_neg hpr]
    · rw [dropDuplicatesAux, if_neg hseen]
      by_cases hpr : (r.user_id == u && r.film_id == f) = true
      · have hkey : (u, f) = (r.user_id, r.film_id) := by
          simp only [Bool.and_eq_true, beq_iff_eq] at hpr
          rw [hpr.1, hpr.2]
        have huf : (u, f) ∉ seen := fun hc => hseen (hkey ▸ hc)
        have hmem : (u, f) ∈ (r.user_id, r.film_id) :: seen := hkey ▸ List.mem_cons_self _ _
        rw [List.filter_cons, if_pos hpr, ih ((r.user_id, r.film_id) :: seen),
          if_pos hmem, if_neg huf, List.filter_cons, if_pos hpr]
        simp
      · have hne : (u, f) ≠ (r.user_id, r.film_id) := by
          intro hc
          apply hpr
          simp only [Bool.and_eq_true, beq_iff_eq]
          exact ⟨(Prod.mk.injEq .. ▸ hc).1.symm ▸ rfl, (Prod.mk.injEq .. ▸ hc).2.symm ▸ rfl⟩
        rw [List.filter_cons, if_neg hpr, ih ((r.user_id, r.film_id) :: seen)]
        simp only [List.mem_cons, hne, false_or]
        rw [List.filter_cons, if_neg hpr]

/-- C2 counterexample: two records keyed `(1, "7")` with scores `2` then `5`;
the code retains the earlier record (score 2), not the most recently merged
one (score 5) as the claim states. -/
theorem dedup_keeps_first_counterexample :
    drop_duplicates [⟨1, "7", 2⟩, ⟨1, "7", 5⟩] = [⟨1, "7", 2⟩] ∧
    drop_duplicates [⟨1, "7", 2⟩, ⟨1, "7", 5⟩] ≠ [⟨1, "7", 5⟩] := by
  decide

/-- C2 (amended): when the cumulative ratings table is deduplicated by
`(user_id, film_id)` — after merging a batch in
`run_full_batch_scraping_method`, and before saving a single user's file in
`generate_user_data` — for every duplicated pair the record retained is the
earliest (first-merged) one, and every later record for that pair is
discarded: the surviving rows for each key are the first occurrence alone. -/
theorem dedup_keeps_first (rows : List Row) (u : Nat) (f : String) :
    (drop_duplicates rows).filter (fun r => r.user_id == u && r.film_id == f) =
      (rows.filter (fun r => r.user_id == u && r.film_id == f)).take 1 := by
  rw [drop_duplicates, dropDuplicatesAux_filter_key u f rows []]
  simp

/-! ## Resilient fetcher

`compile_training_data.get_url_with_retries`:

    for attempt in range(max_retries):
        try:
            response = requests.get(url, headers=HEADERS, timeout=10)
            if response.status_code == 200:
                return response
            ...
        except RequestException as e: ...
        sleep(...)
    print("All retry attempts failed for URL. Aborting program.")
    exit(1)

and `fetch_ratings.scrape_user_ratings_page`, whose HTTP fetch has no
retries and returns `None` both on a failed fetch and on an empty page. -/

/-- Result of `get_url_with_retries` as seen by the rest of the process. -/
inductive FetchResult where
  /-- a 200 response returned to the caller -/
  | response : FetchResult
  /-- `exit(1)`: the whole process aborts -/
  | processExit : FetchResult
deriving DecidableEq

def getUrlAux (ok : Nat → Bool) : Nat → Nat → FetchResult
  | _, 0 => .processExit
  | attempt, fuel + 1 =>
    if ok attempt then .response else getUrlAux ok (attempt + 1) fuel

/-- `get_url_with_retries`, with `ok i` telling whether attempt `i` (0-based)
gets an HTTP 200. After `maxRetries` failed attempts the source calls
`exit(1)`. -/
def get_url_with_retries (ok : Nat → Bool) (maxRetries : Nat) : FetchResult :=
  getUrlAux ok 0 maxRetries

/-! ## Page scraping and rating parsing (`fetch_ratings.py`) -/

/-- A film block of a watched-films page: slug, numeric id, and the stripped
text of the rating span (`none` when the span is absent). -/
structure FilmItem where
  film_slug : String
  film_id : String
  ratingText : Option String
deriving DecidableEq

/-- A stored `[film_slug, film_id, rating]` entry of a page. -/
structure PageRecord where
  film_slug : String
  film_id : String
  rating : ℚ
deriving DecidableEq

/-- `fetch_ratings.parse_rating`: count of `'★'` plus `0.5` if `'½'` occurs;
`None` when the raw string is falsy (absent or empty). -/
def parse_rating (raw : Option String) : Option ℚ :=
  match raw with
  | some s =>
    if s = "" then none
    else some ((s.toList.count '★' : ℚ) + if '½' ∈ s.toList then (1 : ℚ) / 2 else 0)
  | none => none

/-- Per-item record extraction in `scrape_user_ratings_page`:

    raw_rating = rating_span.text.strip() if rating_span else None
    numeric_rating = parse_rating(raw_rating) if raw_rating else None
    if numeric_rating is not None: page_film_data.append({...})
-/
def scrapeFilmItem (item : FilmItem) : Option PageRecord :=
  let numeric :=
    match item.ratingText with
    | some s => if s = "" then none else parse_rating (some s)
    | none => none
  match numeric with
  | some q => some ⟨item.film_slug, item.film_id, q⟩
  | none => none

/-- Outcome of the raw HTTP fetch inside `scrape_user_ratings_page`. -/
inductive PageFetch where
  /-- non-200 status, or a request exception -/
  | failure : PageFetch
  /-- a parsed page with its film blocks -/
  | page : List FilmItem → PageFetch
deriving DecidableEq

/-- `fetch_ratings.scrape_user_ratings_page`: `None` on a failed fetch,
`None` when the page has no film blocks, otherwise the stored records. -/
def scrape_user_ratings_page (fetch : PageFetch) : Option (List PageRecord) :=
  match fetch with
  | .failure => none
  | .page items =>
    if items.isEmpty then none
    else some (items.filterMap scrapeFilmItem)

theorem getUrlAux_allFail (ok : Nat → Bool) (fuel : Nat) :
    ∀ attempt, (∀ i, attempt ≤ i → i < attempt + fuel → ok i = false) →
      getUrlAux ok attempt fuel = .processExit := by
  induction fuel with
  | zero => intro attempt _; rfl
  | succ fuel ih =>
    intro attempt h
    have h0 : ok attempt = false := h attempt le_rfl (by omega)
    rw [getUrlAux, h0]
    simp only [Bool.false_eq_true, if_false]
    exact ih (attempt + 1) (fun i h1 h2 => h i (by omega) (by omega))

/-- C3 counterexample: with every attempt failing, `get_url_with_retries`
ends in `exit(1)` — a whole-process abort, not a failure scoped to the
invoking entity task; and `scrape_user_ratings_page` reports a failed fetch
with the very sentinel (`None`) it uses for an empty page. -/
theorem fetch_exhaustion_counterexample :
    get_url_with_retries (fun _ => false) 5 = FetchResult.processExit ∧
    scrape_user_ratings_page PageFetch.failure =
      scrape_user_ratings_page (PageFetch.page []) := by
  decide

/-- C3 (amended): when a fetch exhausts all its retries,
`get_url_with_retries` terminates the whole process (`exit(1)`) rather than
scoping the failure to the invoking entity task; and the per-page fetch of
`scrape_user_ratings_page` reports failure as `None`, indistinguishable from
its "empty page" result. -/
theorem fetch_exhaustion_spec (ok : Nat → Bool) (maxRetries : Nat)
    (h : ∀ i, i < maxRetries → ok i = false) :
    get_url_with_retries ok maxRetries = FetchResult.processExit ∧
    scrape_user_ratings_page PageFetch.failure =
      scrape_user_ratings_page (PageFetch.page []) := by
  refine ⟨?_, rfl⟩
  exact getUrlAux_allFail ok maxRetries 0 (fun i _ h2 => h i (by omega))

/-- C3 witness: five failing attempts exhaust the default retry bound. -/
theorem fetch_exhaustion_spec_witness :
    (∀ i, i < 5 → (fun _ => false : Nat → Bool) i = false) ∧
    (get_url_with_retries (fun _ => false) 5 = FetchResult.processExit ∧
     scrape_user_ratings_page PageFetch.failure =
       scrape_user_ratings_page (PageFetch.page [])) :=
  ⟨fun _ _ => rfl, fetch_exhaustion_spec (fun _ => false) 5 (fun _ _ => rfl)⟩

/-- C4 counterexample: a raw string of six full-star glyphs parses to `6`,
outside `[0, 5]`; and a non-empty glyph-free rating text (`"abc"`) is truthy,
parses to `0.0`, and the record IS stored with score `0.0` — the claim says a
record with score `0.0` is never produced from a glyph-free string. -/
theorem parse_rating_counterexample :
    parse_rating (some "★★★★★★") = some 6 ∧ ¬((6 : ℚ) ≤ 5) ∧
    scrapeFilmItem ⟨"slug", "1", some "abc"⟩ = some ⟨"slug", "1", 0⟩ := by
  have h1 : ("★★★★★★" : String).toList.count '★' = 6 := by decide
  have h2 : ¬ ('½' ∈ ("★★★★★★" : String).toList) := by decide
  have h3 : ("★★★★★★" : String) ≠ "" := by decide
  have h4 : ("abc" : String) ≠ "" := by decide
  have h5 : ("abc" : String).toList.count '★' = 0 := by decide
  have h6 : ¬ ('½' ∈ ("abc" : String).toList) := by decide
  refine ⟨?_, by norm_num, ?_⟩
  · rw [parse_rating, if_neg h3, h1, if_neg h2]
    norm_num
  · simp only [scrapeFilmItem, if_neg h4, parse_rating, h5, if_neg h6]
    norm_num

/-- C4 (amended): for every raw rating string, the parsed score equals the
count of `'★'` glyphs plus `0.5` if `'½'` is present — always a non-negative
multiple of `0.5`, and within `[0, 5]` whenever the string carries at most
five full glyphs and not five together with a half glyph (the code never
clamps); a record is discarded exactly when the rating text is absent or
empty — a non-empty glyph-free string is stored with score `0.0`. -/
theorem parse_rating_spec (s : String) (h : s ≠ "") :
    parse_rating (some s) =
      some ((s.toList.count '★' : ℚ) + if '½' ∈ s.toList then (1 : ℚ) / 2 else 0) ∧
    (∃ n : ℕ, parse_rating (some s) = some ((n : ℚ) / 2)) ∧
    ((s.toList.count '★' ≤ 4 ∨ (s.toList.count '★' = 5 ∧ '½' ∉ s.toList)) →
      ∀ q : ℚ, parse_rating (some s) = some q → 0 ≤ q ∧ q ≤ 5) ∧
    (∀ item : FilmItem, item.ratingText = some s →
      scrapeFilmItem item = some ⟨item.film_slug, item.film_id,
        (s.toList.count '★' : ℚ) + if '½' ∈ s.toList then (1 : ℚ) / 2 else 0⟩) ∧
    parse_rating none = none ∧ parse_rating (some "") = none ∧
    (∀ item : FilmItem, scrapeFilmItem item = none ↔
      (item.ratingText = none ∨ item.ratingText = some "")) := by
  have hval : parse_rating (some s) =
      some ((s.toList.count '★' : ℚ) + if '½' ∈ s.toList then (1 : ℚ) / 2 else 0) := by
    rw [parse_rating, if_neg h]
  refine ⟨hval, ?_, ?_, ?_, rfl, rfl, ?_⟩
  · refine ⟨2 * s.toList.count '★' + (if '½' ∈ s.toList then 1 else 0), ?_⟩
    rw [hval]
    congr 1
    split <;> push_cast <;> ring
  · rintro (hc | ⟨hc, hnohalf⟩) q hq <;> rw [hval] at hq <;>
      rw [Option.some_inj] at hq <;> subst hq
    · have hcq : (s.toList.count '★' : ℚ) ≤ 4 := by exact_mod_cast hc
      constructor
      · positivity
      · split <;> linarith
    · rw [hc, if_neg hnohalf]
      norm_num
  · intro item hitem
    simp only [scrapeFilmItem, hitem, if_neg h, hval]
  · intro item
    match hrt : item.ratingText with
    | none => simp [scrapeFilmItem, hrt]
    | some t =>
      by_cases ht : t = ""
      · subst ht; simp [scrapeFilmItem, hrt]
      · simp only [scrapeFilmItem, hrt, if_neg ht, parse_rating]
        simp [ht]

/-- C4 witness: `"★★★½"` is non-empty; it parses to `3.5` and all the
amended conclusions hold for it. -/
theorem parse_rating_spec_witness :
    ("★★★½" : String) ≠ "" ∧
    (parse_rating (some "★★★½") =
      some ((("★★★½" : String).toList.count '★' : ℚ) +
        if '½' ∈ ("★★★½" : String).toList then (1 : ℚ) / 2 else 0) ∧
    (∃ n : ℕ, parse_rating (some "★★★½") = some ((n : ℚ) / 2)) ∧
    ((("★★★½" : String).toList.count '★' ≤ 4 ∨
      (("★★★½" : String).toList.count '★' = 5 ∧ '½' ∉ ("★★★½" : String).toList)) →
      ∀ q : ℚ, parse_rating (some "★★★½") = some q → 0 ≤ q ∧ q ≤ 5) ∧
    (∀ item : FilmItem, item.ratingText = some "★★★½" →
      scrapeFilmItem item = some ⟨item.film_slug, item.film_id,
        (("★★★½" : String).toList.count '★' : ℚ) +
          if '½' ∈ ("★★★½" : String).toList then (1 : ℚ) / 2 else 0⟩) ∧
    parse_rating none = none ∧ parse_rating (some "") = none ∧
    (∀ item : FilmItem, scrapeFilmItem item = none ↔
      (item.ratingText = none ∨ item.ratingText = some ""))) :=
  ⟨by decide, parse_rating_spec "★★★½" (by decide)⟩

/-! ## Encoding a user's ratings (`read_in_data.scrape_and_encode_user_ratings`)

The function is parameterised by the records its page scraper produced
(the `df` of `scrape_user_ratings_pages_in_parallel`). It returns the
source's result tuple (or the raised collision error) together with the
state of the two shared dicts after the call: the user map is mutated in
place by the locked section — also when a collision is raised later in the
body — while the source contains no assignment to `film_id_map`, whose
post-state is therefore the input. -/

/-- A Python dict `film_id -> film_slug`. -/
abbrev FilmMap := List (String × String)

/-- Python dict assignment `d[k] = v`: overwrite in place, or append. -/
def dictInsert (d : List (String × α)) (k : String) (v : α) : List (String × α) :=
  if (dictGet k d).isSome then d.map (fun p => if p.1 = k then (k, v) else p)
  else d ++ [(k, v)]

/-- Python `d.update(upd)`. -/
def dictUpdate (d upd : List (String × α)) : List (String × α) :=
  upd.foldl (fun acc p => dictInsert acc p.1 p.2) d

def dedupPairsAux (seen : List (String × String)) :
    List (String × String) → List (String × String)
  | [] => []
  | p :: ps =>
    if p ∈ seen then dedupPairsAux seen ps else p :: dedupPairsAux (p :: seen) ps

/-- `df[["film_id", "film_slug"]].drop_duplicates()` (keep first). -/
def drop_duplicate_pairs (ps : List (String × String)) : List (String × String) :=
  dedupPairsAux [] ps

/-- The film-mapping loop of `scrape_and_encode_user_ratings`: for each
unique `(film_id, film_slug)` pair, a pair whose `film_id` is already in the
shared map with a different slug raises a `ValueError`; a pair absent from
the shared map is staged into the local `new_film_mappings` dict. -/
def stageFilmMappings (film_id_map : FilmMap) :
    List (String × String) → FilmMap → Except String FilmMap
  | [], acc => .ok acc
  | (fid, slug) :: rest, acc =>
    match dictGet fid film_id_map with
    | some existing =>
      if existing ≠ slug then .error ("Film ID collision: " ++ fid)
      else stageFilmMappings film_id_map rest acc
    | none => stageFilmMappings film_id_map rest (dictInsert acc fid slug)

/-- The non-exceptional result tuple of `scrape_and_encode_user_ratings`:
`rows = none` is the source's `None` marker for "no valid ratings". -/
structure EncodeOk where
  rows : Option (List Row)
  new_film_mappings : FilmMap
  max_user_id : Nat
deriving DecidableEq

def scrape_and_encode_user_ratings (records : List PageRecord)
    (user_string : String) (user_id_map : UserMap) (film_id_map : FilmMap) :
    Except String EncodeOk × UserMap × FilmMap :=
  if records.isEmpty then
    (.ok ⟨none, [], maxUserId user_id_map⟩, user_id_map, film_id_map)
  else
    let p := getOrAssign user_string user_id_map
    let rows := records.map (fun r => Row.mk p.1 r.film_id r.rating)
    let pairs := drop_duplicate_pairs (records.map (fun r => (r.film_id, r.film_slug)))
    match stageFilmMappings film_id_map pairs [] with
    | .error e => (.error e, p.2, film_id_map)
    | .ok newMaps => (.ok ⟨some rows, newMaps, maxUserId p.2⟩, p.2, film_id_map)

/-! ## Batch orchestration (`read_in_data.fetch_all_user_data`) -/

/-- The mutable state shared by the orchestrator and the tasks. -/
structure BatchState where
  film_id_to_title : FilmMap
  user_id_mapping : UserMap
  max_user_id : Nat
deriving DecidableEq

/-- A submitted entity task as the orchestrator observes it through
`future.result()`: from the current shared maps it yields a result or a
raised exception, together with the user map as mutated by the task. -/
abbrev EntityTask := String → UserMap → FilmMap → Except String EncodeOk × UserMap

/-- The task `fetch_all_user_data` submits per user: the page scraper runs
first (an exception it raises propagates through `future.result()` before
the locked section can touch the user map), then the encode step. -/
def scrapeTask (scraper : String → Except String (List PageRecord)) : EntityTask :=
  fun user um fm =>
    match scraper user with
    | .error e => (.error e, um)
    | .ok records =>
      let out := scrape_and_encode_user_ratings records user um fm
      (out.1, out.2.1)

/-- The `as_completed` processing loop of `fetch_all_user_data`, in the
serialisation where each task runs when its result is processed: per-user
dataframes are collected, new film mappings merged, the shared user map
threaded, the running `max_user_id` advanced, and a task's exception caught
(reported) without touching the accumulated state. -/
def runBatch (task : EntityTask) : List String → BatchState → List (List Row) × BatchState
  | [], s => ([], s)
  | user :: rest, s =>
    let out := task user s.user_id_mapping s.film_id_to_title
    match out.1 with
    | .error _ => runBatch task rest ⟨s.film_id_to_title, out.2, s.max_user_id⟩
    | .ok res =>
      match res.rows with
      | some df =>
        let tl := runBatch task rest
          ⟨dictUpdate s.film_id_to_title res.new_film_mappings, out.2,
            max s.max_user_id res.max_user_id⟩
        (df :: tl.1, tl.2)
      | none => runBatch task rest ⟨s.film_id_to_title, out.2, s.max_user_id⟩

/-- `fetch_all_user_data`: the film map starts empty, the collected
dataframes are concatenated at the end (`pd.concat`). -/
def fetch_all_user_data (scraper : String → Except String (List PageRecord))
    (users : List String) (user_id_mapping : UserMap) (max_user_id : Nat) :
    List Row × FilmMap × UserMap × Nat :=
  let out := runBatch (scrapeTask scraper) users ⟨[], user_id_mapping, max_user_id⟩
  (out.1.flatten, out.2.film_id_to_title, out.2.user_id_mapping, out.2.max_user_id)

theorem mem_dedupPairsAux (q : String × String) (ps : List (String × String)) :
    ∀ seen, q ∈ ps → q ∉ seen → q ∈ dedupPairsAux seen ps := by
  induction ps with
  | nil => intro seen h _; simp at h
  | cons p rest ih =>
    intro seen hq hqs
    rcases List.mem_cons.mp hq with h | h
    · subst h
      rw [dedupPairsAux, if_neg hqs]
      exact List.mem_cons_self _ _
    · by_cases hp : p ∈ seen
      · rw [dedupPairsAux, if_pos hp]
        exact ih seen h hqs
      · rw [dedupPairsAux, if_neg hp]
        by_cases hqp : q = p
        · subst hqp; exact List.mem_cons_self _ _
        · exact List.mem_cons_of_mem _ (ih (p :: seen) h (by simp [hqp, hqs]))

theorem stageFilmMappings_collision (fm : FilmMap) (ps : List (String × String))
    (h : ∃ q ∈ ps, ∃ l, dictGet q.1 fm = some l ∧ l ≠ q.2) :
    ∀ acc, ∃ e, stageFilmMappings fm ps acc = .error e := by
  induction ps with
  | nil => obtain ⟨q, hq, _⟩ := h; simp at hq
  | cons p rest ih =>
    intro acc
    obtain ⟨q, hq, l, hl, hne⟩ := h
    rcases List.mem_cons.mp hq with hhead | htail
    · subst hhead
      obtain ⟨fid, slug⟩ := q
      have hl' : dictGet fid fm = some l := hl
      have hne' : l ≠ slug := hne
      rw [stageFilmMappings, hl']
      show ∃ e, (if l ≠ slug then Except.error ("Film ID collision: " ++ fid)
        else stageFilmMappings fm rest acc) = Except.error e
      rw [if_pos hne']
      exact ⟨_, rfl⟩
    · obtain ⟨fid, slug⟩ := p
      rw [stageFilmMappings]
      cases hfid : dictGet fid fm with
      | some existing =>
        show ∃ e, (if existing ≠ slug then
            Except.error ("Film ID collision: " ++ fid)
          else stageFilmMappings fm rest acc) = Except.error e
        by_cases hx : existing ≠ slug
        · rw [if_pos hx]; exact ⟨_, rfl⟩
        · rw [if_neg hx]; exact ih ⟨q, htail, l, hl, hne⟩ acc
      | none =>
        show ∃ e, stageFilmMappings fm rest (dictInsert acc fid slug) = Except.error e
        exact ih ⟨q, htail, l, hl, hne⟩ (dictInsert acc fid slug)

/-- C6: whenever some scraped record carries a `film_id` already present in
the shared film map with a different slug, `scrape_and_encode_user_ratings`
raises the collision `ValueError` to its caller rather than swallowing it,
and the shared film map — in particular the pre-existing entry for the
colliding key — is left unchanged. -/
theorem film_collision_spec (records : List PageRecord) (user : String)
    (um : UserMap) (fm : FilmMap)
    (h : ∃ r ∈ records, ∃ l, dictGet r.film_id fm = some l ∧ l ≠ r.film_slug) :
    (∃ e, (scrape_and_encode_user_ratings records user um fm).1 =
      Except.error e) ∧
    (scrape_and_encode_user_ratings records user um fm).2.2 = fm ∧
    (∀ fid l, dictGet fid fm = some l →
      dictGet fid (scrape_and_encode_user_ratings records user um fm).2.2
        = some l) := by
  obtain ⟨r, hr, l, hl, hne⟩ := h
  have hcol : ∃ q ∈ drop_duplicate_pairs
      (records.map (fun r => (r.film_id, r.film_slug))),
      ∃ l, dictGet q.1 fm = some l ∧ l ≠ q.2 := by
    refine ⟨(r.film_id, r.film_slug), ?_, l, hl, hne⟩
    exact mem_dedupPairsAux _ _ [] (List.mem_map_of_mem _ hr) (by simp)
  obtain ⟨e, he⟩ := stageFilmMappings_collision fm _ hcol []
  have hempty : records.isEmpty = false := by
    cases records with
    | nil => simp at hr
    | cons a as => rfl
  have hfmfix : (scrape_and_encode_user_ratings records user um fm).2.2 = fm := by
    rw [scrape_and_encode_user_ratings]
    simp only [hempty, Bool.false_eq_true, if_false]
    rw [he]
  refine ⟨⟨e, ?_⟩, hfmfix, fun fid l' hl' => by rw [hfmfix]; exact hl'⟩
  rw [scrape_and_encode_user_ratings]
  simp only [hempty, Bool.false_eq_true, if_false]
  rw [he]

/-- C6 witness: the film map holds `35995 ↦ nosferatu-2024`; a record
re-registering `35995` as `other-title` makes the call error out with the
map intact. -/
theorem film_collision_spec_witness :
    (∃ r ∈ [(⟨"other-title", "35995", 4⟩ : PageRecord)], ∃ l,
      dictGet r.film_id [("35995", "nosferatu-2024")] = some l ∧
      l ≠ r.film_slug) ∧
    ((∃ e, (scrape_and_encode_user_ratings [⟨"other-title", "35995", 4⟩] "u"
        [] [("35995", "nosferatu-2024")]).1 = Except.error e) ∧
     (scrape_and_encode_user_ratings [⟨"other-title", "35995", 4⟩] "u"
        [] [("35995", "nosferatu-2024")]).2.2 = [("35995", "nosferatu-2024")] ∧
     (∀ fid l, dictGet fid [("35995", "nosferatu-2024")] = some l →
       dictGet fid (scrape_and_encode_user_ratings [⟨"other-title", "35995", 4⟩]
         "u" [] [("35995", "nosferatu-2024")]).2.2 = some l)) :=
  ⟨⟨⟨"other-title", "35995", 4⟩, by simp, "nosferatu-2024", by decide⟩,
   film_collision_spec [⟨"other-title", "35995", 4⟩] "u" []
     [("35995", "nosferatu-2024")]
     ⟨⟨"other-title", "35995", 4⟩, by simp, "nosferatu-2024", by decide⟩⟩

theorem getOrAssign_preserves (v k : String) (um : UserMap) (hk : k ≠ v) :
    dictGet k (getOrAssign v um).2 = dictGet k um := by
  rw [getOrAssign]
  cases hv : dictGet v um with
  | some i => rfl
  | none =>
    show dictGet k (um ++ [(v, maxUserId um + 1)]) = dictGet k um
    rw [dictGet_append]
    cases dictGet k um with
    | some x => rfl
    | none =>
      show dictGet k [(v, maxUserId um + 1)] = none
      simp [dictGet, Ne.symm hk]

theorem scrape_userMap_eq (records : List PageRecord) (v : String)
    (um : UserMap) (fm : FilmMap) :
    (scrape_and_encode_user_ratings records v um fm).2.1 = um ∨
    (scrape_and_encode_user_ratings records v um fm).2.1 = (getOrAssign v um).2 := by
  cases hempty : records.isEmpty with
  | true => left; simp [scrape_and_encode_user_ratings, hempty]
  | false =>
    right
    simp only [scrape_and_encode_user_ratings, hempty, Bool.false_eq_true, if_false]
    cases hst : stageFilmMappings fm
        (drop_duplicate_pairs (records.map (fun r => (r.film_id, r.film_slug)))) [] with
    | error e => rfl
    | ok nm => rfl

theorem scrapeTask_userMap_preserves (scraper : String → Except String (List PageRecord))
    (v k : String) (um : UserMap) (fm : FilmMap) (hk : k ≠ v) :
    dictGet k ((scrapeTask scraper) v um fm).2 = dictGet k um := by
  rw [scrapeTask]
  cases scraper v with
  | error e => rfl
  | ok records =>
    show dictGet k (scrape_and_encode_user_ratings records v um fm).2.1 = dictGet k um
    rcases scrape_userMap_eq records v um fm with h | h
    · rw [h]
    · rw [h]; exact getOrAssign_preserves v k um hk

theorem runBatch_skip (scraper : String → Except String (List PageRecord))
    (u : String) (hscr : scraper u = .ok ([] : List PageRecord)) :
    ∀ (users : List String) (s : BatchState),
      runBatch (scrapeTask scraper) users s =
        runBatch (scrapeTask scraper) (users.filter (fun v => !(v == u))) s := by
  intro users
  induction users with
  | nil => intro s; rfl
  | cons v rest ih =>
    intro s
    by_cases hv : v = u
    · have hstep : (scrapeTask scraper) v s.user_id_mapping s.film_id_to_title =
          (.ok ⟨none, [], maxUserId s.user_id_mapping⟩, s.user_id_mapping) := by
        simp [scrapeTask, hv, hscr, scrape_and_encode_user_ratings]
      have hfilter : (v :: rest).filter (fun w => !(w == u)) =
          rest.filter (fun w => !(w == u)) := by
        simp [List.filter_cons, hv]
      rw [hfilter]
      simp only [runBatch, hstep]
      exact ih s
    · have hfilter : (v :: rest).filter (fun w => !(w == u)) =
          v :: rest.filter (fun w => !(w == u)) := by
        simp [List.filter_cons, hv]
      rw [hfilter]
      simp only [runBatch]
      split
      · exact ih _
      · split
        · rw [ih _]
        · exact ih _

theorem runBatch_userMap_preserves (scraper : String → Except String (List PageRecord))
    (k : String) :
    ∀ (users : List String) (s : BatchState), (∀ v ∈ users, k ≠ v) →
      dictGet k (runBatch (scrapeTask scraper) users s).2.user_id_mapping =
        dictGet k s.user_id_mapping := by
  intro users
  induction users with
  | nil => intro s _; rfl
  | cons v rest ih =>
    intro s hall
    have hkv : k ≠ v := hall v (List.mem_cons_self _ _)
    have hrest : ∀ w ∈ rest, k ≠ w := fun w hw => hall w (List.mem_cons_of_mem _ hw)
    have hpres := scrapeTask_userMap_preserves scraper v k
      s.user_id_mapping s.film_id_to_title hkv
    simp only [runBatch]
    split
    · rw [ih _ hrest]; exact hpres
    · split
      · dsimp only
        rw [ih _ hrest]
        exact hpres
      · rw [ih _ hrest]; exact hpres

/-- C5 counterexample: the end-to-end batch over `["a", "b"]` with two
records for `"a"` and none for `"b"`: the batch yields two rows for the id
assigned to `"a"` and zero rows for `"b"`, but — contrary to the claim —
`"b"` is absent from the identity table: the no-data early return of
`scrape_and_encode_user_ratings` happens before the locked id assignment. -/
theorem empty_scrape_counterexample :
    fetch_all_user_data
      (fun v => if v = "a" then Except.ok [⟨"s1", "f1", 4⟩, ⟨"s2", "f2", 3⟩]
        else Except.ok [])
      ["a", "b"] [] 0 =
      ([⟨1, "f1", 4⟩, ⟨1, "f2", 3⟩], [("f1", "s1"), ("f2", "s2")], [("a", 1)], 1) ∧
    dictGet "b" [("a", 1)] = none := by
  exact ⟨rfl, rfl⟩

/-- C5 (amended): a batch in which entity `u`'s scrape yields zero valid
ratings completes without error and is identical to the batch with `u`
removed — zero rating rows for `u` — and `u`'s key is NOT added to the
identity table: if it was unmapped before the batch it is still unmapped
after. -/
theorem empty_scrape_spec (scraper : String → Except String (List PageRecord))
    (u : String) (users : List String) (s : BatchState)
    (hscr : scraper u = .ok ([] : List PageRecord))
    (hnot : dictGet u s.user_id_mapping = none) :
    runBatch (scrapeTask scraper) users s =
      runBatch (scrapeTask scraper) (users.filter (fun v => !(v == u))) s ∧
    dictGet u (runBatch (scrapeTask scraper) users s).2.user_id_mapping = none := by
  refine ⟨runBatch_skip scraper u hscr users s, ?_⟩
  rw [runBatch_skip scraper u hscr users s]
  have hall : ∀ v ∈ users.filter (fun v => !(v == u)), u ≠ v := by
    intro v hv hvu
    have := (List.mem_filter.mp hv).2
    subst hvu
    simp at this
  rw [runBatch_userMap_preserves scraper u (users.filter (fun v => !(v == u))) s hall]
  exact hnot

/-- A page scraper that finds no records for anyone (used as a witness
input). -/
def emptyScraper : String → Except String (List PageRecord) := fun _ => .ok []

/-- C5 witness: scraper returning no records for anyone, batch `["a", "b"]`,
entity `"b"`, empty initial state. -/
theorem empty_scrape_spec_witness :
    (emptyScraper "b" = Except.ok ([] : List PageRecord) ∧
     dictGet "b" (⟨[], [], 0⟩ : BatchState).user_id_mapping = none) ∧
    (runBatch (scrapeTask emptyScraper) ["a", "b"] ⟨[], [], 0⟩ =
      runBatch (scrapeTask emptyScraper)
        ((["a", "b"] : List String).filter (fun v => !(v == "b"))) ⟨[], [], 0⟩ ∧
     dictGet "b" (runBatch (scrapeTask emptyScraper)
        ["a", "b"] ⟨[], [], 0⟩).2.user_id_mapping = none) :=
  ⟨⟨rfl, rfl⟩,
   empty_scrape_spec emptyScraper "b" ["a", "b"] ⟨[], [], 0⟩ rfl rfl⟩

theorem runBatch_append (task : EntityTask) (xs ys : List String) :
    ∀ s : BatchState,
      runBatch task (xs ++ ys) s =
        ((runBatch task xs s).1 ++ (runBatch task ys (runBatch task xs s).2).1,
          (runBatch task ys (runBatch task xs s).2).2) := by
  induction xs with
  | nil => intro s; simp [runBatch]
  | cons v rest ih =>
    intro s
    simp only [List.cons_append, runBatch]
    split
    · exact ih _
    · split
      · simp only [List.append_eq]
        rw [ih _]
        simp
      · exact ih _

theorem runBatch_error_cons (task : EntityTask) (u : String) (after : List String)
    (s₁ : BatchState) (e : String)
    (he : (task u s₁.user_id_mapping s₁.film_id_to_title).1 = .error e) :
    runBatch task (u :: after) s₁ =
      runBatch task after ⟨s₁.film_id_to_title,
        (task u s₁.user_id_mapping s₁.film_id_to_title).2, s₁.max_user_id⟩ := by
  simp only [runBatch, he]

/-- C7: an exception raised inside one entity's task is caught and isolated
to that entity: with `u`'s task failing at its point in the completion
order, the batch result over `before ++ u :: after` is the dataframes of
`before` followed by those of `after` — `u` contributes no rows, the shared
film map and the running max id are handed to the remaining tasks exactly
as `before` left them, the remaining tasks run to completion and merge
normally, and no whole-batch abort occurs. -/
theorem batch_partial_failure (task : EntityTask) (before after : List String)
    (u : String) (s : BatchState)
    (herr : ∃ e, (task u (runBatch task before s).2.user_id_mapping
        (runBatch task before s).2.film_id_to_title).1 = Except.error e) :
    runBatch task (before ++ u :: after) s =
      ((runBatch task before s).1 ++
        (runBatch task after
          ⟨(runBatch task before s).2.film_id_to_title,
            (task u (runBatch task before s).2.user_id_mapping
              (runBatch task before s).2.film_id_to_title).2,
            (runBatch task before s).2.max_user_id⟩).1,
        (runBatch task after
          ⟨(runBatch task before s).2.film_id_to_title,
            (task u (runBatch task before s).2.user_id_mapping
              (runBatch task before s).2.film_id_to_title).2,
            (runBatch task before s).2.max_user_id⟩).2) := by
  obtain ⟨e, he⟩ := herr
  rw [runBatch_append task before (u :: after) s,
    runBatch_error_cons task u after (runBatch task before s).2 e he]

/-- A scraper whose task raises for `"bad"` and succeeds for the others
(used as a witness input). -/
def partialScraper : String → Except String (List PageRecord) := fun v =>
  if v = "bad" then .error "boom"
  else if v = "a" then .ok [⟨"s1", "f1", 4⟩] else .ok [⟨"s2", "f2", 3⟩]

/-- C7 witness: batch `["a", "bad", "c"]` where `"bad"`'s task raises:
`"a"` and `"c"` are merged normally and `"bad"` is simply absent. -/
theorem batch_partial_failure_witness :
    (∃ e, ((scrapeTask partialScraper) "bad"
        (runBatch (scrapeTask partialScraper) ["a"] ⟨[], [], 0⟩).2.user_id_mapping
        (runBatch (scrapeTask partialScraper) ["a"] ⟨[], [], 0⟩).2.film_id_to_title).1 =
      Except.error e) ∧
    runBatch (scrapeTask partialScraper) (["a"] ++ "bad" :: ["c"]) ⟨[], [], 0⟩ =
      ((runBatch (scrapeTask partialScraper) ["a"] ⟨[], [], 0⟩).1 ++
        (runBatch (scrapeTask partialScraper) ["c"]
          ⟨(runBatch (scrapeTask partialScraper) ["a"] ⟨[], [], 0⟩).2.film_id_to_title,
            ((scrapeTask partialScraper) "bad"
              (runBatch (scrapeTask partialScraper) ["a"] ⟨[], [], 0⟩).2.user_id_mapping
              (runBatch (scrapeTask partialScraper) ["a"] ⟨[], [], 0⟩).2.film_id_to_title).2,
            (runBatch (scrapeTask partialScraper) ["a"] ⟨[], [], 0⟩).2.max_user_id⟩).1,
        (runBatch (scrapeTask partialScraper) ["c"]
          ⟨(runBatch (scrapeTask partialScraper) ["a"] ⟨[], [], 0⟩).2.film_id_to_title,
            ((scrapeTask partialScraper) "bad"
              (runBatch (scrapeTask partialScraper) ["a"] ⟨[], [], 0⟩).2.user_id_mapping
              (runBatch (scrapeTask partialScraper) ["a"] ⟨[], [], 0⟩).2.film_id_to_title).2,
            (runBatch (scrapeTask partialScraper) ["a"] ⟨[], [], 0⟩).2.max_user_id⟩).2) :=
  ⟨⟨"boom", rfl⟩,
   batch_partial_failure (scrapeTask partialScraper) ["a"] ["c"] "bad"
     ⟨[], [], 0⟩ ⟨"boom", rfl⟩⟩

/-! ## Parallel pagination (`fetch_ratings.scrape_user_ratings_pages_in_parallel`)

The loop submits `batch_size` consecutive pages starting at `page_number`,
extends `film_data` with every returned page, counts the pages of the batch
that returned no films (`None` or an empty list — both falsy — are embedded
as `[]`), and exits exactly when `empty_pages >= batch_size`. The loop is
embedded with a fuel parameter (`none` = the loop was still running after
`fuel` batches); the source has no other stop condition and no page cap. -/

def scrapeLoop (pages : Nat → List PageRecord) (B : Nat) :
    Nat → Nat → List PageRecord → Option (List PageRecord)
  | 0, _, _ => none
  | fuel + 1, start, acc =>
    let results := (List.range' start B).map pages
    let acc' := acc ++ results.flatten
    let empties := (results.filter (fun r => r.isEmpty)).length
    if B ≤ empties then some acc' else scrapeLoop pages B fuel (start + B) acc'

/-- `scrape_user_ratings_pages_in_parallel`: pagination starts at page 1
with an empty accumulator. -/
def scrape_user_ratings_pages_in_parallel (pages : Nat → List PageRecord)
    (batch_size fuel : Nat) : Option (List PageRecord) :=
  scrapeLoop pages batch_size fuel 1 []

theorem scrapeLoop_run (pages : Nat → List PageRecord) (B : Nat) :
    ∀ (n start : Nat) (acc : List PageRecord) (fuel : Nat), n < fuel →
      (∀ i < n, ∃ p ∈ List.range' (start + i * B) B, pages p ≠ []) →
      (∀ p ∈ List.range' (start + n * B) B, pages p = []) →
      scrapeLoop pages B fuel start acc =
        some (acc ++ ((List.range' start ((n + 1) * B)).map pages).flatten) := by
  intro n
  induction n with
  | zero =>
    intro start acc fuel hfuel _ hempty
    match fuel, hfuel with
    | f + 1, _ =>
      have hall : ∀ r ∈ (List.range' start B).map pages, r.isEmpty = true := by
        intro r hr
        obtain ⟨p, hp, rfl⟩ := List.mem_map.mp hr
        rw [List.isEmpty_iff]
        exact hempty p (by simpa using hp)
      have hfilter : ((List.range' start B).map pages).filter (fun r => r.isEmpty) =
          (List.range' start B).map pages := List.filter_eq_self.mpr hall
      have hlen : (((List.range' start B).map pages).filter
          (fun r => r.isEmpty)).length = B := by
        rw [hfilter, List.length_map, List.length_range']
      simp only [scrapeLoop]
      rw [if_pos (by rw [hlen])]
      norm_num
  | succ m ih =>
    intro start acc fuel hfuel hne hempty
    match fuel, hfuel with
    | f + 1, hf =>
      obtain ⟨p, hp, hpne⟩ := hne 0 (Nat.succ_pos m)
      have hp' : p ∈ List.range' start B := by simpa using hp
      have hlt : (((List.range' start B).map pages).filter
          (fun r => r.isEmpty)).length < ((List.range' start B).map pages).length := by
        apply List.length_filter_lt_length_iff_exists.mpr
        refine ⟨pages p, List.mem_map_of_mem _ hp', ?_⟩
        simpa [List.isEmpty_iff] using hpne
      have hlen : ((List.range' start B).map pages).length = B := by
        rw [List.length_map, List.length_range']
      have hcond : ¬ (B ≤ (((List.range' start B).map pages).filter
          (fun r => r.isEmpty)).length) := by omega
      simp only [scrapeLoop]
      rw [if_neg hcond]
      have hne' : ∀ i < m, ∃ q ∈ List.range' (start + B + i * B) B, pages q ≠ [] := by
        intro i hi
        have harith : start + B + i * B = start + (i + 1) * B := by ring
        rw [harith]
        exact hne (i + 1) (by omega)
      have hempty' : ∀ q ∈ List.range' (start + B + m * B) B, pages q = [] := by
        have harith : start + B + m * B = start + (m + 1) * B := by ring
        rw [harith]
        exact hempty
      rw [ih (start + B) (acc ++ ((List.range' start B).map pages).flatten) f
        (by omega) hne' hempty']
      rw [List.append_assoc]
      congr 1
      congr 1
      rw [← List.flatten_append, ← List.map_append, List.range'_append_1]
      have harith : (m + 1) * B + B = (m + 1 + 1) * B := by ring
      rw [harith]

/-- C8: whenever every page with index `≥ K` returns no records, the
pagination loop terminates (any fuel beyond the stopping batch yields the
same result); it stops exactly at the first submitted batch of `batch_size`
consecutive pages all returning empty — every earlier batch contains a
non-empty page, so no other condition stops it and there is no hard page
cap — and the result accumulates the records of every page fetched before
stopping. -/
theorem pagination_spec (pages : Nat → List PageRecord) (B K : Nat) (hB : 0 < B)
    (hK : ∀ p, K ≤ p → pages p = []) :
    ∃ n : Nat,
      (∀ i < n, ∃ p ∈ List.range' (1 + i * B) B, pages p ≠ []) ∧
      (∀ p ∈ List.range' (1 + n * B) B, pages p = []) ∧
      ∀ fuel, n < fuel →
        scrape_user_ratings_pages_in_parallel pages B fuel =
          some (((List.range' 1 ((n + 1) * B)).map pages).flatten) := by
  have hex : ∃ i, ∀ p ∈ List.range' (1 + i * B) B, pages p = [] := by
    refine ⟨K, fun p hp => hK p ?_⟩
    obtain ⟨j, hj, rfl⟩ := List.mem_range'.mp hp
    have hKB : K ≤ K * B := Nat.le_mul_of_pos_right K hB
    omega
  refine ⟨Nat.find hex, ?_, Nat.find_spec hex, ?_⟩
  · intro i hi
    have hni := Nat.find_min hex hi
    push_neg at hni
    exact hni
  · intro fuel hfuel
    have h1 : ∀ i < Nat.find hex, ∃ p ∈ List.range' (1 + i * B) B, pages p ≠ [] := by
      intro i hi
      have hni := Nat.find_min hex hi
      push_neg at hni
      exact hni
    have := scrapeLoop_run pages B (Nat.find hex) 1 [] fuel hfuel h1
      (Nat.find_spec hex)
    rw [scrape_user_ratings_pages_in_parallel, this]
    simp

/-- A stub page scraper: pages 1 and 2 carry one record each, everything
later is empty (used as a witness input). -/
def exPages : Nat → List PageRecord := fun p =>
  if p ≤ 2 then [⟨"s", "f", 1⟩] else []

/-- C8 witness: batch size 5, all pages from index 3 on empty: the loop
stops after the second batch (pages 6-10 all empty) having collected the
records of pages 1 and 2. -/
theorem pagination_spec_witness :
    (0 < 5 ∧ ∀ p, 3 ≤ p → exPages p = []) ∧
    (∃ n : Nat,
      (∀ i < n, ∃ p ∈ List.range' (1 + i * 5) 5, exPages p ≠ []) ∧
      (∀ p ∈ List.range' (1 + n * 5) 5, exPages p = []) ∧
      ∀ fuel, n < fuel →
        scrape_user_ratings_pages_in_parallel exPages 5 fuel =
          some (((List.range' 1 ((n + 1) * 5)).map exPages).flatten)) :=
  ⟨⟨by decide, fun p hp => by
      unfold exPages
      rw [if_neg (by omega : ¬ p ≤ 2)]⟩,
   pagination_spec exPages 5 3 (by decide) (fun p hp => by
      unfold exPages
      rw [if_neg (by omega : ¬ p ≤ 2)])⟩

/-! ## Persistence (`load_save_and_translate_data.py`)

`save_final_data` writes, in order: the raw ratings (versioned per the
flag), then the translated ratings, the film mappings and the user mappings
(each with `versioned=False`). `translate_ratings_dataframe` raises a
`ValueError` before the translated file is written when any id is
unmapped. A CSV write is embedded as an event naming the table and whether
it is the timestamped snapshot or the overwritten `latest` file. -/

/-- The four persisted tables. -/
inductive Table where
  | raw | translated | film | user
deriving DecidableEq

/-- One CSV write: which table, and whether it is the timestamped snapshot
(`snapshot = true`) or the canonical always-overwritten `latest` file. -/
structure WriteEvent where
  table : Table
  snapshot : Bool
deriving DecidableEq

/-- `save_csv_versions`: always writes the latest file; writes the
timestamped copy only when `versioned` is true. -/
def save_csv_versions (tbl : Table) (versioned : Bool) : List WriteEvent :=
  [⟨tbl, false⟩] ++ (if versioned then [⟨tbl, true⟩] else [])

/-- A translated row `(username, film_title, rating)`. -/
structure TRow where
  username : String
  film_title : String
  rating : ℚ
deriving DecidableEq

/-- Python `{int(v): k for k, v in user_id_mapping.items()}`: on duplicate
values the later item wins, so lookups are embedded as first-match lookup
over the reversed pair list. -/
def invertUserMap (um : UserMap) : List (Nat × String) :=
  (um.map (fun p => (p.2, p.1))).reverse

/-- `translate_ratings_dataframe`: maps ids back to names, then raises on
any unmapped user id (checked first) or film id; otherwise returns the
translated rows. -/
def translate_ratings_dataframe (df : List Row) (user_id_mapping : UserMap)
    (film_id_mapping : FilmMap) : Except String (List TRow) :=
  let inv := invertUserMap user_id_mapping
  if df.any (fun r => (dictGet r.user_id inv).isNone) then
    .error "Unmapped user IDs encountered"
  else if df.any (fun r => (dictGet r.film_id film_id_mapping).isNone) then
    .error "Unmapped film IDs encountered"
  else
    .ok (df.map (fun r => ⟨(dictGet r.user_id inv).getD "",
      (dictGet r.film_id film_id_mapping).getD "", r.rating⟩))

/-- `save_final_data`: raw ratings first (snapshot governed by the flag),
then translation — whose `ValueError` propagates, leaving only the raw
writes performed — then the translated, film and user tables, never
versioned. -/
def save_final_data (df_encoded_values : List Row) (film_id_to_title : FilmMap)
    (user_id_mapping : UserMap) (versioned : Bool) :
    Except String Unit × List WriteEvent :=
  let w1 := save_csv_versions .raw versioned
  match translate_ratings_dataframe df_encoded_values user_id_mapping
      film_id_to_title with
  | .error e => (.error e, w1)
  | .ok _ =>
    (.ok (), w1 ++ save_csv_versions .translated false ++
      save_csv_versions .film false ++ save_csv_versions .user false)

/-- C9 counterexample: with an unmapped user id and the versioned flag set,
`save_final_data` raises inside translation after writing only the raw
ratings files: the latest translated, film and user files are NOT
overwritten on this call, so the claim's "always overwrites each of the
four tables" fails. -/
theorem save_final_data_counterexample :
    (save_final_data [⟨1, "f", 4⟩] [] [] true).2 =
      [⟨Table.raw, false⟩, ⟨Table.raw, true⟩] ∧
    (⟨Table.translated, false⟩ : WriteEvent) ∉
      (save_final_data [⟨1, "f", 4⟩] [] [] true).2 ∧
    (⟨Table.film, false⟩ : WriteEvent) ∉
      (save_final_data [⟨1, "f", 4⟩] [] [] true).2 ∧
    (⟨Table.user, false⟩ : WriteEvent) ∉
      (save_final_data [⟨1, "f", 4⟩] [] [] true).2 := by
  decide

/-- C9 (amended): on a run whose translation succeeds, `save_final_data` overwrites
the canonical latest file of each of the four tables, and writes a
timestamped snapshot only for the raw ratings table and only when the
versioned flag is true; no other table is ever written as a snapshot. -/
theorem save_final_data_spec (df : List Row) (fm : FilmMap) (um : UserMap)
    (versioned : Bool)
    (h : ∃ t, translate_ratings_dataframe df um fm = .ok t) :
    (save_final_data df fm um versioned).2 =
      [⟨Table.raw, false⟩] ++ (if versioned then [⟨Table.raw, true⟩] else []) ++
      [⟨Table.translated, false⟩, ⟨Table.film, false⟩, ⟨Table.user, false⟩] ∧
    ((⟨Table.raw, false⟩ : WriteEvent) ∈ (save_final_data df fm um versioned).2 ∧
     (⟨Table.translated, false⟩ : WriteEvent) ∈ (save_final_data df fm um versioned).2 ∧
     (⟨Table.film, false⟩ : WriteEvent) ∈ (save_final_data df fm um versioned).2 ∧
     (⟨Table.user, false⟩ : WriteEvent) ∈ (save_final_data df fm um versioned).2) ∧
    (∀ e ∈ (save_final_data df fm um versioned).2, e.snapshot = true →
      e.table = Table.raw ∧ versioned = true) := by
  obtain ⟨t, ht⟩ := h
  have hw : (save_final_data df fm um versioned).2 =
      save_csv_versions .raw versioned ++ save_csv_versions .translated false ++
      save_csv_versions .film false ++ save_csv_versions .user false := by
    simp only [save_final_data, ht]
  cases versioned with
  | true =>
    rw [hw]
    refine ⟨by decide, by decide, ?_⟩
    intro e he _
    refine ⟨?_, rfl⟩
    simp only [save_csv_versions] at he
    fin_cases he <;> simp_all
  | false =>
    rw [hw]
    refine ⟨by decide, by decide, ?_⟩
    intro e he hsnap
    simp only [save_csv_versions] at he
    fin_cases he <;> simp_all

/-- C9 witness: one mapped row, `versioned = true`. -/
theorem save_final_data_spec_witness :
    (∃ t, translate_ratings_dataframe [⟨1, "f", 4⟩] [("a", 1)] [("f", "t")] =
      .ok t) ∧
    ((save_final_data [⟨1, "f", 4⟩] [("f", "t")] [("a", 1)] true).2 =
      [⟨Table.raw, false⟩] ++ (if true then [⟨Table.raw, true⟩] else []) ++
      [⟨Table.translated, false⟩, ⟨Table.film, false⟩, ⟨Table.user, false⟩] ∧
    ((⟨Table.raw, false⟩ : WriteEvent) ∈
        (save_final_data [⟨1, "f", 4⟩] [("f", "t")] [("a", 1)] true).2 ∧
     (⟨Table.translated, false⟩ : WriteEvent) ∈
        (save_final_data [⟨1, "f", 4⟩] [("f", "t")] [("a", 1)] true).2 ∧
     (⟨Table.film, false⟩ : WriteEvent) ∈
        (save_final_data [⟨1, "f", 4⟩] [("f", "t")] [("a", 1)] true).2 ∧
     (⟨Table.user, false⟩ : WriteEvent) ∈
        (save_final_data [⟨1, "f", 4⟩] [("f", "t")] [("a", 1)] true).2) ∧
    (∀ e ∈ (save_final_data [⟨1, "f", 4⟩] [("f", "t")] [("a", 1)] true).2,
      e.snapshot = true → e.table = Table.raw ∧ true = true)) :=
  ⟨⟨[⟨"a", "t", 4⟩], rfl⟩,
   save_final_data_spec [⟨1, "f", 4⟩] [("f", "t")] [("a", 1)] true
     ⟨[⟨"a", "t", 4⟩], rfl⟩⟩

/-- C10: whenever some row's `user_id` has no entry in the (inverted) user
mapping or some row's `film_id` has no entry in the film mapping,
`translate_ratings_dataframe` raises a `ValueError`, and `save_final_data`
consequently fails loudly before the translated ratings file is written:
the error propagates and no write event for the translated table occurs. -/
theorem translate_unmapped_spec (df : List Row) (um : UserMap) (fm : FilmMap)
    (versioned : Bool)
    (h : ∃ r ∈ df, dictGet r.user_id (invertUserMap um) = none ∨
      dictGet r.film_id fm = none) :
    (∃ e, translate_ratings_dataframe df um fm = .error e) ∧
    (∃ e, (save_final_data df fm um versioned).1 = .error e) ∧
    (∀ ev ∈ (save_final_data df fm um versioned).2,
      ev.table ≠ Table.translated) := by
  have herr : ∃ e, translate_ratings_dataframe df um fm = .error e := by
    by_cases hb1 : df.any (fun r => (dictGet r.user_id (invertUserMap um)).isNone) = true
    · exact ⟨"Unmapped user IDs encountered",
        by simp only [translate_ratings_dataframe, hb1, if_true]⟩
    · obtain ⟨r, hr, hcase⟩ := h
      have hb2 : df.any (fun r => (dictGet r.film_id fm).isNone) = true := by
        rcases hcase with hu | hf
        · exact absurd (List.any_eq_true.mpr ⟨r, hr, by simp [hu]⟩) hb1
        · exact List.any_eq_true.mpr ⟨r, hr, by simp [hf]⟩
      refine ⟨"Unmapped film IDs encountered", ?_⟩
      simp only [translate_ratings_dataframe, hb1, hb2, if_true, if_false,
        Bool.false_eq_true]
  obtain ⟨e, he⟩ := herr
  have hsave : save_final_data df fm um versioned =
      (.error e, save_csv_versions .raw versioned) := by
    simp only [save_final_data, he]
  refine ⟨⟨e, he⟩, ⟨e, by rw [hsave]⟩, ?_⟩
  rw [hsave]
  intro ev hev
  simp only [save_csv_versions] at hev
  cases versioned <;> fin_cases hev <;> simp_all

/-- C10 witness: a single row whose user id 1 is absent from the empty user
mapping; only the raw table is written, with the error raised. -/
theorem translate_unmapped_spec_witness :
    (∃ r ∈ [(⟨1, "f", 4⟩ : Row)], dictGet r.user_id (invertUserMap []) = none ∨
      dictGet r.film_id ([] : FilmMap) = none) ∧
    ((∃ e, translate_ratings_dataframe [⟨1, "f", 4⟩] [] [] = .error e) ∧
     (∃ e, (save_final_data [⟨1, "f", 4⟩] [] [] false).1 = .error e) ∧
     (∀ ev ∈ (save_final_data [⟨1, "f", 4⟩] [] [] false).2,
       ev.table ≠ Table.translated)) :=
  ⟨⟨⟨1, "f", 4⟩, by simp, Or.inl rfl⟩,
   translate_unmapped_spec [⟨1, "f", 4⟩] [] [] false
     ⟨⟨1, "f", 4⟩, by simp, Or.inl rfl⟩⟩

end Letterboxd
